import Mathlib

/-!
Verification of the detection post-processing core of the image-recognition
repository (`api/upload.py`).  The embedding models Python floats as exact
rationals (`ℚ`), Python lists as Lean lists, Python dicts with string keys as
association lists, and the duck-typed prediction dictionaries as a `Detection`
structure with the three fields the core reads (`displayName`, `confidence`,
`bbox`).  Machine-level floating point is out of scope: every numeric claim is
settled as an exact identity over `ℚ`.
-/

/-! ### Python string primitives used by the label parsers

`get_class_number` and the hair-count parser in `calculate_follicular_metrics`
use `str.lower()`, `str.startswith('class')`, `str.replace('class', '')` and
`int(...)`.  The labels in this domain are ASCII, so the ASCII fragments of
these Python operations are modelled. -/

/-- ASCII `str.lower`: map uppercase A–Z (codes 65–90) to lowercase. -/
def pyLowerChar (c : Char) : Char :=
  if 65 ≤ c.toNat ∧ c.toNat ≤ 90 then Char.ofNat (c.toNat + 32) else c

/-- `str.lower` over the character list of a string. -/
def pyLower (l : List Char) : List Char := l.map pyLowerChar

/-- ASCII decimal digit test (codes 48–57), the digits accepted by `int()`. -/
def isDigitCh (c : Char) : Bool := decide (48 ≤ c.toNat ∧ c.toNat ≤ 57)

/-- Python whitespace stripped by `int()` before parsing. -/
def isPySpace (c : Char) : Bool :=
  c = ' ' ∨ c = '\t' ∨ c = '\n' ∨ c = '\r' ∨ c = Char.ofNat 11 ∨ c = Char.ofNat 12

/-- Strip leading and trailing whitespace, as `int()` does. -/
def pyStrip (l : List Char) : List Char :=
  ((l.dropWhile isPySpace).reverse.dropWhile isPySpace).reverse

/-- Value of a list of decimal digits, most significant first. -/
def digitsVal (l : List Char) : ℕ :=
  l.foldl (fun a c => 10 * a + (c.toNat - 48)) 0

/-- Python `int(s)` on an ASCII string: strip whitespace, allow one sign,
then a nonempty run of decimal digits; anything else raises (here: `none`).
(Underscore separators and non-ASCII digits never occur in this domain.) -/
def pythonInt (l : List Char) : Option ℤ :=
  match pyStrip l with
  | [] => none
  | c :: rest =>
    if c = '-' then
      if rest ≠ [] ∧ rest.all isDigitCh then some (-(digitsVal rest : ℤ)) else none
    else if c = '+' then
      if rest ≠ [] ∧ rest.all isDigitCh then some (digitsVal rest : ℤ) else none
    else if (c :: rest).all isDigitCh then some (digitsVal (c :: rest) : ℤ) else none

/-- `s.replace('class', '')`: delete every non-overlapping occurrence of
`"class"`, scanning left to right. -/
def stripClassAll : List Char → List Char
  | 'c' :: 'l' :: 'a' :: 's' :: 's' :: rest => stripClassAll rest
  | c :: rest => c :: stripClassAll rest
  | [] => []

/-- `upload.py` `get_class_number` (also inlined as `sort_key` in `apply_nms`):
`class_name.lower().startswith('class')` guards
`int(class_name.lower().replace('class', ''))`; every other label — including
bare numeric ones — takes the `else` branch and gets priority 0, and a parse
failure is caught and also yields 0. -/
def get_class_number (class_name : String) : ℤ :=
  let low := pyLower class_name.data
  if "class".data.isPrefixOf low then
    match pythonInt (stripClassAll low) with
    | some k => k
    | none => 0
  else 0

/-- The hair-count parser inside `calculate_follicular_metrics`: same `class`
branch, but bare labels are parsed with `int(class_name)` directly, and the
`except` default is 1 rather than 0. -/
def parse_hair_count (class_name : String) : ℤ :=
  let low := pyLower class_name.data
  if "class".data.isPrefixOf low then
    match pythonInt (stripClassAll low) with
    | some k => k
    | none => 1
  else
    match pythonInt class_name.data with
    | some k => k
    | none => 1

/-! ### Data model -/

/-- Normalized bounding box `[xMin, xMax, yMin, yMax]`. -/
structure BBox where
  xmin : ℚ
  xmax : ℚ
  ymin : ℚ
  ymax : ℚ
deriving DecidableEq

/-- One detection, with the three fields the core reads from the prediction
dictionaries. -/
structure Detection where
  displayName : String
  confidence : ℚ
  bbox : BBox
deriving DecidableEq

/-- NMS configuration (`iou_threshold`, `padding_factor`, `max_predictions`). -/
structure NMSConfig where
  iou_threshold : ℚ
  padding_factor : ℚ
  max_predictions : ℕ

/-! ### Geometry (`calculate_iou`, `apply_padding_to_bbox`) -/

/-- `upload.py` `calculate_iou`. -/
def calculate_iou (box1 box2 : BBox) : ℚ :=
  let xLeft := max box1.xmin box2.xmin
  let yTop := max box1.ymin box2.ymin
  let xRight := min box1.xmax box2.xmax
  let yBottom := min box1.ymax box2.ymax
  if xRight < xLeft ∨ yBottom < yTop then 0
  else
    let interArea := (xRight - xLeft) * (yBottom - yTop)
    let box1Area := (box1.xmax - box1.xmin) * (box1.ymax - box1.ymin)
    let box2Area := (box2.xmax - box2.xmin) * (box2.ymax - box2.ymin)
    let unionArea := box1Area + box2Area - interArea
    if unionArea = 0 then 0 else interArea / unionArea

/-- `upload.py` `apply_padding_to_bbox`: identity at factor 0, otherwise expand
about the center by `(1 + padding_factor)` and clamp each coordinate. -/
def apply_padding_to_bbox (bbox : BBox) (padding_factor : ℚ) : BBox :=
  if padding_factor = 0 then bbox
  else
    let centerX := (bbox.xmin + bbox.xmax) / 2
    let centerY := (bbox.ymin + bbox.ymax) / 2
    let width := bbox.xmax - bbox.xmin
    let height := bbox.ymax - bbox.ymin
    let newWidth := width * (1 + padding_factor)
    let newHeight := height * (1 + padding_factor)
    { xmin := max 0 (centerX - newWidth / 2)
      xmax := min 1 (centerX + newWidth / 2)
      ymin := max 0 (centerY - newHeight / 2)
      ymax := min 1 (centerY + newHeight / 2) }

/-- The ordered-and-clamped invariant the spec states for boxes. -/
def wfBBox (b : BBox) : Prop :=
  0 ≤ b.xmin ∧ b.xmin ≤ b.xmax ∧ b.xmax ≤ 1 ∧
  0 ≤ b.ymin ∧ b.ymin ≤ b.ymax ∧ b.ymax ≤ 1

instance (b : BBox) : Decidable (wfBBox b) := by unfold wfBBox; infer_instance

/-! ### Rounding and truncation

Python `round(x, d)` rounds half to even at the `d`-th decimal; `int(x)` on a
float truncates toward zero.  The claims below never depend on a rounded value
other than at 0, where every rounding mode agrees. -/

/-- Round half to even, the rounding of Python `round`. -/
def roundHalfEven (x : ℚ) : ℤ :=
  let f : ℤ := ⌊x⌋
  if x - f < 1/2 then f
  else if x - f > 1/2 then f + 1
  else if f % 2 = 0 then f else f + 1

/-- Python `round(x, d)` over exact rationals. -/
def pyRound (x : ℚ) (d : ℕ) : ℚ := (roundHalfEven (x * 10 ^ d) : ℚ) / 10 ^ d

/-- Python `int(x)` on a float: truncation toward zero. -/
def truncQ (x : ℚ) : ℤ := if 0 ≤ x then ⌊x⌋ else ⌈x⌉

/-! ### DensityScorer (`calculate_follicular_metrics`) -/

/-- The metrics dictionary produced by `calculate_follicular_metrics`. -/
structure FollicularMetrics where
  total_follicular_units : ℕ
  total_hairs : ℤ
  follicular_density_per_cm2 : ℚ
  average_hair_per_unit : ℚ
  fu_with_one_hair : ℕ
  fu_with_multiple_hairs : ℕ
  area_cm2 : ℚ
  class_distribution : List (String × ℕ)
deriving DecidableEq

/-- The known reference area 7mm x 3.94mm = 0.273 cm². -/
def AREA_CM2 : ℚ := 273/1000

/-- One `class_counts` dictionary update: insert the key with count 0 if
missing, then increment it. -/
def histIncr (hist : List (String × ℕ)) (k : String) : List (String × ℕ) :=
  if hist.any (fun e => e.1 == k) then
    hist.map (fun e => if e.1 = k then (e.1, e.2 + 1) else e)
  else hist ++ [(k, 1)]

/-- The counting loop of `calculate_follicular_metrics`: skip detections with
confidence below 0.1, then accumulate `(total_follicular_units, total_hairs,
class_counts)`. -/
def follicularFold (preds : List Detection) : ℕ × ℤ × List (String × ℕ) :=
  preds.foldl
    (fun acc p =>
      if p.confidence < 1/10 then acc
      else (acc.1 + 1, acc.2.1 + parse_hair_count p.displayName,
            histIncr acc.2.2 p.displayName))
    (0, 0, [])

/-- The second loop of `calculate_follicular_metrics`: split the class
histogram into units whose parsed hair count is 1 and all others. -/
def fuBreakdown (hist : List (String × ℕ)) : ℕ × ℕ :=
  hist.foldl
    (fun acc e =>
      if parse_hair_count e.1 = 1 then (acc.1 + e.2, acc.2) else (acc.1, acc.2 + e.2))
    (0, 0)

/-- `upload.py` `calculate_follicular_metrics`. -/
def calculate_follicular_metrics (preds : List Detection) : FollicularMetrics :=
  let acc := follicularFold preds
  let totalUnits := acc.1
  let totalHairs := acc.2.1
  let hist := acc.2.2
  let br := fuBreakdown hist
  let density : ℚ := if AREA_CM2 > 0 then (totalUnits : ℚ) / AREA_CM2 else 0
  let avg : ℚ := if totalUnits > 0 then (totalHairs : ℚ) / (totalUnits : ℚ) else 0
  { total_follicular_units := totalUnits
    total_hairs := totalHairs
    follicular_density_per_cm2 := pyRound density 2
    average_hair_per_unit := pyRound avg 2
    fu_with_one_hair := br.1
    fu_with_multiple_hairs := br.2
    area_cm2 := AREA_CM2
    class_distribution := hist }

/-! ### ThicknessScorer and CombinedScorer (`calculate_combined_metrics`) -/

/-- `sum(1 for p in tp if p['displayName'] == 'strong')`. -/
def strongCountRaw (tp : List Detection) : ℕ :=
  tp.countP (fun p => p.displayName == "strong")

/-- Count of `'medium'` labels. -/
def mediumCountRaw (tp : List Detection) : ℕ :=
  tp.countP (fun p => p.displayName == "medium")

/-- Count of `'weak'` labels. -/
def weakCountRaw (tp : List Detection) : ℕ :=
  tp.countP (fun p => p.displayName == "weak")

/-- Count of thickness detections whose label is none of the three recognized
categories (vocabulary for the corrected claim C1; not a function of the
source, which never computes it). -/
def unrecognizedThicknessCount (tp : List Detection) : ℕ :=
  tp.countP (fun p =>
    !(p.displayName == "strong" || p.displayName == "medium" || p.displayName == "weak"))

/-- Lines 259–268 of `upload.py`: raw thickness counts
`(strong, medium, weak, total)`, where the total is `len(thickness_predictions)`. -/
def thicknessRaw (tp : List Detection) : ℕ × ℕ × ℕ × ℕ :=
  if tp ≠ [] then (strongCountRaw tp, mediumCountRaw tp, weakCountRaw tp, tp.length)
  else (0, 0, 0, 0)

/-- Lines 272–293 of `upload.py`: rescale the thickness categories to the
density model's hair count, giving `(strong_hairs, medium_hairs, weak_hairs,
total_thickness_detections)`; all zero if either total is not positive. -/
def effectiveThickness (tp : List Detection) (total_hairs : ℤ) : ℚ × ℚ × ℚ × ℚ :=
  let r := thicknessRaw tp
  if r.2.2.2 > 0 ∧ total_hairs > 0 then
    ((r.1 : ℚ) / (r.2.2.2 : ℚ) * (total_hairs : ℚ),
     (r.2.1 : ℚ) / (r.2.2.2 : ℚ) * (total_hairs : ℚ),
     (r.2.2.1 : ℚ) / (r.2.2.2 : ℚ) * (total_hairs : ℚ),
     (total_hairs : ℚ))
  else (0, 0, 0, 0)

/-- A JSON-dictionary value of the scorecard: a float, an int, or a string. -/
inductive JVal where
  | num (q : ℚ)
  | int (z : ℤ)
  | str (s : String)
deriving DecidableEq

/-- Dictionary lookup on the scorecard association list. -/
def dictGet (k : String) : List (String × JVal) → Option JVal
  | [] => none
  | e :: rest => if e.1 = k then some e.2 else dictGet k rest

/-- The two-cut-point color banding repeated through
`calculate_combined_metrics` (`success` at or above the high cut, `warning` at
or above the low cut, `danger` below). -/
def bandColor (x cutHi cutLo : ℚ) : String :=
  if x ≥ cutHi then "success" else if x ≥ cutLo then "warning" else "danger"

/-- `upload.py` `calculate_combined_metrics`.  When both inputs are empty it
returns the reduced 7-field dictionary of lines 234–243; otherwise the full
17-field scorecard of lines 404–422.  The Python fallback
`{'total_follicular_units': 0, 'total_hairs': 0}` for an empty density input is
modelled by the two conditional extractions, which are the only reads. -/
def calculate_combined_metrics (dp tp : List Detection) : List (String × JVal) :=
  if dp = [] ∧ tp = [] then
    [("terminal_to_vellus_ratio", JVal.num 0),
     ("percent_thick_hairs", JVal.num 0),
     ("hair_caliber_index", JVal.int 0),
     ("average_thickness_score", JVal.num 0),
     ("hairs_per_fu", JVal.num 0),
     ("hairs_per_cm2", JVal.num 0),
     ("effective_hair_density", JVal.num 0)]
  else
    let totalHairs : ℤ := if dp ≠ [] then (calculate_follicular_metrics dp).total_hairs else 0
    let totalFu : ℕ := if dp ≠ [] then (calculate_follicular_metrics dp).total_follicular_units else 0
    let e := effectiveThickness tp totalHairs
    let strongHairs := e.1
    let mediumHairs := e.2.1
    let weakHairs := e.2.2.1
    let totalThicknessDetections := e.2.2.2
    let terminalToVellusRatio : ℚ :=
      if strongHairs > 0 then weakHairs / strongHairs * 100 else 0
    let percentThickHairs : ℚ :=
      if totalThicknessDetections > 0 then strongHairs / totalThicknessDetections * 100 else 0
    let hairCaliberIndex : ℤ := truncQ (strongHairs * 3 + mediumHairs * (3/2) + weakHairs * 1)
    let hairCaliberIndexPercentage : ℚ :=
      if totalHairs > 0 then (hairCaliberIndex : ℚ) / ((totalHairs : ℚ) * 3) * 100 else 0
    let averageThicknessScore : ℚ :=
      if totalThicknessDetections > 0 then (hairCaliberIndex : ℚ) / totalThicknessDetections else 0
    let hairsPerFu : ℚ := if totalFu > 0 then (totalHairs : ℚ) / (totalFu : ℚ) else 0
    let hairsPerCm2 : ℚ := if AREA_CM2 > 0 then (totalHairs : ℚ) / AREA_CM2 else 0
    let effectiveHairDensity : ℚ := hairsPerCm2 * averageThicknessScore / 3
    let ehdMax : ℚ := 220
    let ehdPercentage : ℚ := if ehdMax > 0 then effectiveHairDensity / ehdMax * 100 else 0
    let hciNormalized := hairCaliberIndexPercentage / 100
    let ehdNormalized := ehdPercentage / 100
    let overallHairScore : ℚ :=
      if hciNormalized > 0 ∧ ehdNormalized > 0 then
        2 / (1 / hciNormalized + 1 / ehdNormalized) * 100
      else 0
    let ohsBand : String × String :=
      if overallHairScore ≥ 80 then ("Good", "success")
      else if overallHairScore ≥ 50 then ("Borderline", "warning")
      else ("Poor Coverage/Density", "danger")
    [("terminal_to_vellus_ratio", JVal.num (pyRound terminalToVellusRatio 1)),
     ("terminal_to_vellus_color", JVal.str (bandColor terminalToVellusRatio 7 4)),
     ("percent_thick_hairs", JVal.num (pyRound percentThickHairs 1)),
     ("thick_hair_color", JVal.str (bandColor percentThickHairs 90 75)),
     ("hair_caliber_index", JVal.int hairCaliberIndex),
     ("hair_caliber_index_percentage", JVal.num (pyRound hairCaliberIndexPercentage 1)),
     ("hci_color", JVal.str (bandColor hairCaliberIndexPercentage 80 50)),
     ("average_thickness_score", JVal.num (pyRound averageThicknessScore 2)),
     ("hairs_per_fu", JVal.num (pyRound hairsPerFu 2)),
     ("hairs_per_cm2", JVal.num (pyRound hairsPerCm2 1)),
     ("hairs_per_cm2_color", JVal.str (bandColor hairsPerCm2 150 110)),
     ("effective_hair_density", JVal.num (pyRound effectiveHairDensity 1)),
     ("ehd_percentage", JVal.num (pyRound ehdPercentage 1)),
     ("ehd_color", JVal.str (bandColor ehdPercentage 80 50)),
     ("overall_hair_score", JVal.num (pyRound overallHairScore 1)),
     ("ohs_interpretation", JVal.str ohsBand.1),
     ("ohs_color", JVal.str ohsBand.2)]

/-! ### Suppressor (`apply_nms`)

Python's `sorted` is a stable sort by the key tuple
`(-class_num, -confidence)` compared lexicographically.  Any stable sort with
respect to a total preorder computes the same list, so the sort is embedded as
Mathlib's (stable) insertion sort on the corresponding total preorder. -/

/-- Class priority of a detection, as computed by `sort_key` and the priority
comparison in `apply_nms` (both are the `get_class_number` logic). -/
def classNum (p : Detection) : ℤ := get_class_number p.displayName

/-- The Python sort key `(-class_num, -confidence)`. -/
def sortKey (p : Detection) : ℤ × ℚ := (-(classNum p), -p.confidence)

/-- Strict lexicographic comparison of Python tuples `(int, float)`. -/
def keyLt (a b : ℤ × ℚ) : Prop := a.1 < b.1 ∨ (a.1 = b.1 ∧ a.2 < b.2)

instance (a b : ℤ × ℚ) : Decidable (keyLt a b) := by unfold keyLt; infer_instance

/-- The total preorder `sorted` orders by: `a` precedes `b` iff `b`'s key is
not strictly below `a`'s. -/
def nmsLe (a b : Detection) : Prop := ¬ keyLt (sortKey b) (sortKey a)

instance : DecidableRel nmsLe := fun a b => by unfold nmsLe; infer_instance

instance : IsTotal Detection nmsLe := by
  constructor
  intro a b
  by_cases h : keyLt (sortKey b) (sortKey a)
  · right
    rcases h with h1 | ⟨h1, h2⟩
    · intro h3
      rcases h3 with h4 | ⟨h4, h5⟩
      · exact absurd (h1.trans h4) (lt_irrefl _)
      · exact absurd h1 (h4 ▸ lt_irrefl _)
    · intro h3
      rcases h3 with h4 | ⟨h4, h5⟩
      · exact absurd h4 (h1 ▸ lt_irrefl _)
      · exact absurd (h2.trans h5) (lt_irrefl _)
  · left; exact h

instance : IsTrans Detection nmsLe := by
  constructor
  intro a b c hab hbc
  unfold nmsLe keyLt at *
  push_neg at hab hbc ⊢
  obtain ⟨hab1, hab2⟩ := hab
  obtain ⟨hbc1, hbc2⟩ := hbc
  refine ⟨hab1.trans hbc1, fun h => ?_⟩
  have h2 : (sortKey b).1 = (sortKey a).1 := by omega
  have h1 : (sortKey c).1 = (sortKey b).1 := by omega
  exact (hab2 h2).trans (hbc2 h1)

/-- The `sorted(predictions, key=sort_key)` call: stable ascending sort. -/
def pySortPredictions (l : List Detection) : List Detection :=
  List.insertionSort nmsLe l

/-- The inner-loop conflict test: IoU of the two padded boxes is strictly
above the threshold. -/
def conflictB (cfg : NMSConfig) (p q : Detection) : Bool :=
  decide (cfg.iou_threshold <
    calculate_iou (apply_padding_to_bbox p.bbox cfg.padding_factor)
      (apply_padding_to_bbox q.bbox cfg.padding_factor))

/-- The main loop of `apply_nms`: for each candidate in sorted order, find the
first already-accepted detection whose padded IoU with the candidate exceeds
the threshold; on a conflict the candidate replaces it if its class priority is
strictly greater (`list.remove` + append), otherwise the candidate is dropped;
with no conflict the candidate is appended. -/
def nmsLoop (cfg : NMSConfig) : List Detection → List Detection → List Detection
  | acc, [] => acc
  | acc, p :: rest =>
    match acc.find? (conflictB cfg p) with
    | none => nmsLoop cfg (acc ++ [p]) rest
    | some sel =>
      if classNum p > classNum sel then nmsLoop cfg (acc.erase sel ++ [p]) rest
      else nmsLoop cfg acc rest

/-- `upload.py` `apply_nms`: early return on empty input, sort, suppress, then
truncate to `max_predictions` if the result is longer. -/
def apply_nms (preds : List Detection) (cfg : NMSConfig) : List Detection :=
  if preds = [] then []
  else
    let fl := nmsLoop cfg [] (pySortPredictions preds)
    if fl.length > cfg.max_predictions then fl.take cfg.max_predictions else fl

/-- Modelled from claim C10's words: plain greedy NMS that, after the same
sort, only ever drops a candidate conflicting with an already-accepted
detection and never removes an accepted detection. -/
def greedyLoop (cfg : NMSConfig) : List Detection → List Detection → List Detection
  | acc, [] => acc
  | acc, p :: rest =>
    if acc.any (conflictB cfg p) then greedyLoop cfg acc rest
    else greedyLoop cfg (acc ++ [p]) rest

/-- Plain greedy NMS with the same wrapper (sort, loop, truncation) as
`apply_nms` but without the class-priority replacement branch. -/
def greedy_nms (preds : List Detection) (cfg : NMSConfig) : List Detection :=
  if preds = [] then []
  else
    let fl := greedyLoop cfg [] (pySortPredictions preds)
    if fl.length > cfg.max_predictions then fl.take cfg.max_predictions else fl

/-! ### Fixed shapes and defaults used in the statements -/

/-- Default detection used with `List.getD` in pairwise statements. -/
def defaultDet : Detection := ⟨"", 0, ⟨0, 0, 0, 0⟩⟩

/-- The 17 keys of the full scorecard, in dictionary order. -/
def scorecardKeys : List String :=
  ["terminal_to_vellus_ratio", "terminal_to_vellus_color",
   "percent_thick_hairs", "thick_hair_color",
   "hair_caliber_index", "hair_caliber_index_percentage", "hci_color",
   "average_thickness_score", "hairs_per_fu",
   "hairs_per_cm2", "hairs_per_cm2_color",
   "effective_hair_density", "ehd_percentage", "ehd_color",
   "overall_hair_score", "ohs_interpretation", "ohs_color"]

/-- The 7 keys of the reduced scorecard returned when both inputs are empty. -/
def emptyScorecardKeys : List String :=
  ["terminal_to_vellus_ratio", "percent_thick_hairs", "hair_caliber_index",
   "average_thickness_score", "hairs_per_fu", "hairs_per_cm2",
   "effective_hair_density"]

/-! ### General lemmas about the embedded operations -/

/-- IoU is symmetric in its two boxes. -/
theorem calculate_iou_comm (a b : BBox) : calculate_iou a b = calculate_iou b a := by
  simp only [calculate_iou]
  rw [max_comm a.xmin b.xmin, max_comm a.ymin b.ymin,
      min_comm a.xmax b.xmax, min_comm a.ymax b.ymax,
      add_comm ((a.xmax - a.xmin) * (a.ymax - a.ymin))]

/-- An empty thickness list rescales to all-zero effective counts. -/
theorem effectiveThickness_nil (th : ℤ) : effectiveThickness [] th = (0, 0, 0, 0) := by
  simp [effectiveThickness, thicknessRaw]

/-- Truncation toward zero fixes 0. -/
theorem truncQ_zero : truncQ 0 = 0 := by simp [truncQ]

/-- Python rounding fixes 0 at every precision. -/
theorem pyRound_zero (d : ℕ) : pyRound 0 d = 0 := by
  simp [pyRound, roundHalfEven]

/-- The three category counts plus the unrecognized count partition the
thickness list. -/
theorem thickness_counts_partition (tp : List Detection) :
    strongCountRaw tp + mediumCountRaw tp + weakCountRaw tp +
      unrecognizedThicknessCount tp = tp.length := by
  induction tp with
  | nil => rfl
  | cons p tl ih =>
    simp only [strongCountRaw, mediumCountRaw, weakCountRaw,
      unrecognizedThicknessCount, List.countP_cons, List.length_cons] at *
    by_cases h1 : p.displayName = "strong" <;>
      by_cases h2 : p.displayName = "medium" <;>
      by_cases h3 : p.displayName = "weak" <;>
      simp [h1, h2, h3] at * <;> omega

/-- Away from the both-empty early return, the scorecard always carries the
same 17 keys in the same order. -/
theorem combined_full_keys (dp tp : List Detection) (h : ¬(dp = [] ∧ tp = [])) :
    (calculate_combined_metrics dp tp).map Prod.fst = scorecardKeys := by
  rw [calculate_combined_metrics, if_neg h]
  rfl

/-! ### Claim C1 — thickness `total_detections` -/

/-- C1 (counterexample): on a thickness set holding one detection labelled
`"other"`, the raw total used by `calculate_combined_metrics` is 1 — the
number of elements — while the strong, medium and weak counts sum to 0, so
`total_detections` is not the sum of the three counts. -/
theorem thickness_total_counterexample :
    (thicknessRaw [⟨"other", 1, ⟨0, 0, 0, 0⟩⟩]).2.2.2 ≠
      strongCountRaw [⟨"other", 1, ⟨0, 0, 0, 0⟩⟩] +
      mediumCountRaw [⟨"other", 1, ⟨0, 0, 0, 0⟩⟩] +
      weakCountRaw [⟨"other", 1, ⟨0, 0, 0, 0⟩⟩] := by decide

/-- C1 (amended): the raw thickness total is the number of elements of the
thickness set — equivalently the sum of the three category counts plus the
count of unrecognized labels — so detections with other labels stay in the
denominator of every downstream ratio. -/
theorem thickness_total_is_length (tp : List Detection) :
    (thicknessRaw tp).2.2.2 = tp.length ∧
    (thicknessRaw tp).2.2.2 =
      strongCountRaw tp + mediumCountRaw tp + weakCountRaw tp +
        unrecognizedThicknessCount tp := by
  have hpart := thickness_counts_partition tp
  by_cases h : tp = []
  · subst h; exact ⟨rfl, rfl⟩
  · rw [thicknessRaw, if_pos h]
    exact ⟨rfl, hpart.symm⟩

/-! ### Claim C2 — effective counts sum to the density total -/

/-- A single detection with confidence 1 passes the confidence floor and
contributes its parsed hair count. -/
theorem follicularFold_singleton (s : String) (b : BBox) :
    follicularFold [⟨s, 1, b⟩] = (1, parse_hair_count s, [(s, 1)]) := by
  simp [follicularFold, histIncr]
  norm_num

/-- `total_hairs` of a one-detection density set is its parsed hair count. -/
theorem total_hairs_singleton (s : String) (b : BBox) :
    (calculate_follicular_metrics [⟨s, 1, b⟩]).total_hairs = parse_hair_count s := by
  simp [calculate_follicular_metrics, follicularFold_singleton]

/-- C2 (counterexample): density set `[label "2"]` gives `total_hairs = 2 > 0`,
and the thickness set `[label "other"]` is non-empty, yet the rescaled
effective strong, medium and weak counts sum to 0, not to `total_hairs`. -/
theorem effective_sum_counterexample :
    (effectiveThickness [⟨"other", 1, ⟨0, 0, 0, 0⟩⟩]
        (calculate_follicular_metrics [⟨"2", 1, ⟨0, 0, 0, 0⟩⟩]).total_hairs).1 +
      (effectiveThickness [⟨"other", 1, ⟨0, 0, 0, 0⟩⟩]
        (calculate_follicular_metrics [⟨"2", 1, ⟨0, 0, 0, 0⟩⟩]).total_hairs).2.1 +
      (effectiveThickness [⟨"other", 1, ⟨0, 0, 0, 0⟩⟩]
        (calculate_follicular_metrics [⟨"2", 1, ⟨0, 0, 0, 0⟩⟩]).total_hairs).2.2.1 ≠
    ((calculate_follicular_metrics [⟨"2", 1, ⟨0, 0, 0, 0⟩⟩]).total_hairs : ℚ) := by
  have h2 : (calculate_follicular_metrics [⟨"2", 1, ⟨0, 0, 0, 0⟩⟩]).total_hairs = 2 := by
    rw [total_hairs_singleton]; decide
  rw [h2]
  have hr : thicknessRaw [⟨"other", 1, ⟨0, 0, 0, 0⟩⟩] = (0, 0, 0, 1) := by decide
  simp [effectiveThickness, hr]

/-- C2 (amended): when the thickness set is non-empty, every thickness label
is one of strong/medium/weak, and the density `total_hairs` is positive, the
rescaled effective counts sum exactly to the density model's `total_hairs`. -/
theorem effective_sum_eq_density_total (dp tp : List Detection)
    (htp : tp ≠ [])
    (hall : ∀ p ∈ tp, p.displayName = "strong" ∨ p.displayName = "medium" ∨
      p.displayName = "weak")
    (hth : 0 < (calculate_follicular_metrics dp).total_hairs) :
    (effectiveThickness tp (calculate_follicular_metrics dp).total_hairs).1 +
      (effectiveThickness tp (calculate_follicular_metrics dp).total_hairs).2.1 +
      (effectiveThickness tp (calculate_follicular_metrics dp).total_hairs).2.2.1 =
    ((calculate_follicular_metrics dp).total_hairs : ℚ) := by
  have hunrec : unrecognizedThicknessCount tp = 0 := by
    rw [unrecognizedThicknessCount, List.countP_eq_zero]
    intro p hp
    rcases hall p hp with h | h | h <;> simp [h]
  have hpart := thickness_counts_partition tp
  rw [hunrec, add_zero] at hpart
  have hlen : 0 < tp.length := List.length_pos.mpr htp
  have hraw : thicknessRaw tp =
      (strongCountRaw tp, mediumCountRaw tp, weakCountRaw tp, tp.length) := by
    rw [thicknessRaw, if_pos htp]
  have hLne : ((tp.length : ℚ)) ≠ 0 := by
    exact_mod_cast Nat.pos_iff_ne_zero.mp hlen
  have hsum : (strongCountRaw tp : ℚ) + (mediumCountRaw tp : ℚ) +
      (weakCountRaw tp : ℚ) = (tp.length : ℚ) := by exact_mod_cast hpart
  simp only [effectiveThickness, hraw]
  rw [if_pos ⟨hlen, hth⟩]
  have hre : (strongCountRaw tp : ℚ) / (tp.length : ℚ) *
        ((calculate_follicular_metrics dp).total_hairs : ℚ) +
      (mediumCountRaw tp : ℚ) / (tp.length : ℚ) *
        ((calculate_follicular_metrics dp).total_hairs : ℚ) +
      (weakCountRaw tp : ℚ) / (tp.length : ℚ) *
        ((calculate_follicular_metrics dp).total_hairs : ℚ) =
      ((strongCountRaw tp : ℚ) + (mediumCountRaw tp : ℚ) + (weakCountRaw tp : ℚ)) /
        (tp.length : ℚ) * ((calculate_follicular_metrics dp).total_hairs : ℚ) := by
    ring
  rw [hre, hsum, div_self hLne, one_mul]

/-- C2 (witness): concrete instance of `effective_sum_eq_density_total` with
density `[label "1"]` and thickness `[label "strong"]`. -/
theorem effective_sum_eq_density_total_witness :
    ([⟨"strong", 1, ⟨0, 0, 0, 0⟩⟩] : List Detection) ≠ [] ∧
    (∀ p ∈ ([⟨"strong", 1, ⟨0, 0, 0, 0⟩⟩] : List Detection),
      p.displayName = "strong" ∨ p.displayName = "medium" ∨ p.displayName = "weak") ∧
    0 < (calculate_follicular_metrics [⟨"1", 1, ⟨0, 0, 0, 0⟩⟩]).total_hairs ∧
    (effectiveThickness [⟨"strong", 1, ⟨0, 0, 0, 0⟩⟩]
        (calculate_follicular_metrics [⟨"1", 1, ⟨0, 0, 0, 0⟩⟩]).total_hairs).1 +
      (effectiveThickness [⟨"strong", 1, ⟨0, 0, 0, 0⟩⟩]
        (calculate_follicular_metrics [⟨"1", 1, ⟨0, 0, 0, 0⟩⟩]).total_hairs).2.1 +
      (effectiveThickness [⟨"strong", 1, ⟨0, 0, 0, 0⟩⟩]
        (calculate_follicular_metrics [⟨"1", 1, ⟨0, 0, 0, 0⟩⟩]).total_hairs).2.2.1 =
    ((calculate_follicular_metrics [⟨"1", 1, ⟨0, 0, 0, 0⟩⟩]).total_hairs : ℚ) := by
  have hth : 0 < (calculate_follicular_metrics [⟨"1", 1, ⟨0, 0, 0, 0⟩⟩]).total_hairs := by
    rw [total_hairs_singleton]; decide
  have hall : ∀ p ∈ ([⟨"strong", 1, ⟨0, 0, 0, 0⟩⟩] : List Detection),
      p.displayName = "strong" ∨ p.displayName = "medium" ∨ p.displayName = "weak" := by
    intro p hp
    simp only [List.mem_singleton] at hp
    subst hp
    left
    rfl
  exact ⟨by simp, hall, hth,
    effective_sum_eq_density_total [⟨"1", 1, ⟨0, 0, 0, 0⟩⟩]
      [⟨"strong", 1, ⟨0, 0, 0, 0⟩⟩] (by simp) hall hth⟩

/-! ### Claim C7 — padding preserves the box invariant -/

/-- C7 (counterexample): with `padding_factor = 0` the padding step returns
its input unchanged and unclamped, so an unordered, out-of-bounds input box
(here xMin = 2 > xMax = 0) violates the claimed invariant after the step. -/
theorem padding_invariant_counterexample :
    ¬ wfBBox (apply_padding_to_bbox ⟨2, 0, 0, 0⟩ 0) := by
  rw [apply_padding_to_bbox, if_pos rfl]
  intro h
  rcases h with ⟨h1, h2, h3⟩
  norm_num at h2

/-- C7 (amended): for every input box that already satisfies the ordered,
in-bounds invariant and every `padding_factor` in `[0, 1]`, the padded box
satisfies the invariant as well. -/
theorem padding_preserves_invariant (bbox : BBox) (pf : ℚ)
    (hwf : wfBBox bbox) (h0 : 0 ≤ pf) (h1 : pf ≤ 1) :
    wfBBox (apply_padding_to_bbox bbox pf) := by
  obtain ⟨hx0, hxo, hx1, hy0, hyo, hy1⟩ := hwf
  rw [apply_padding_to_bbox]
  by_cases hz : pf = 0
  · rw [if_pos hz]
    exact ⟨hx0, hxo, hx1, hy0, hyo, hy1⟩
  · rw [if_neg hz]
    have hpf1 : (0:ℚ) < 1 + pf := by linarith
    have hwx : 0 ≤ (bbox.xmax - bbox.xmin) * (1 + pf) := by
      apply mul_nonneg <;> linarith
    have hwy : 0 ≤ (bbox.ymax - bbox.ymin) * (1 + pf) := by
      apply mul_nonneg <;> linarith
    have hcx0 : 0 ≤ (bbox.xmin + bbox.xmax) / 2 := by linarith
    have hcx1 : (bbox.xmin + bbox.xmax) / 2 ≤ 1 := by linarith
    have hcy0 : 0 ≤ (bbox.ymin + bbox.ymax) / 2 := by linarith
    have hcy1 : (bbox.ymin + bbox.ymax) / 2 ≤ 1 := by linarith
    refine ⟨le_max_left _ _, ?_, min_le_left _ _,
            le_max_left _ _, ?_, min_le_left _ _⟩
    · apply max_le
      · apply le_min
        · norm_num
        · linarith
      · apply le_min
        · linarith
        · linarith
    · apply max_le
      · apply le_min
        · norm_num
        · linarith
      · apply le_min
        · linarith
        · linarith

/-- C7 (witness): the unit box padded by 1/2 stays ordered and in `[0, 1]`. -/
theorem padding_preserves_invariant_witness :
    wfBBox ⟨0, 1, 0, 1⟩ ∧ (0:ℚ) ≤ 1/2 ∧ (1:ℚ)/2 ≤ 1 ∧
    wfBBox (apply_padding_to_bbox ⟨0, 1, 0, 1⟩ (1/2)) := by
  have hwf : wfBBox ⟨0, 1, 0, 1⟩ := by
    refine ⟨?_, ?_, ?_, ?_, ?_, ?_⟩ <;> norm_num
  exact ⟨hwf, by norm_num, by norm_num,
    padding_preserves_invariant ⟨0, 1, 0, 1⟩ (1/2) hwf (by norm_num) (by norm_num)⟩

/-! ### Claim C5 — the class-priority extraction -/

/-- Lowercasing fixes decimal digits. -/
theorem pyLowerChar_digit (c : Char) (h : isDigitCh c = true) : pyLowerChar c = c := by
  simp only [isDigitCh, decide_eq_true_eq] at h
  rw [pyLowerChar, if_neg (by omega)]

/-- A decimal digit is not the letter `c`. -/
theorem digit_ne_c (c : Char) (h : isDigitCh c = true) : c ≠ 'c' := by
  simp only [isDigitCh, decide_eq_true_eq] at h
  intro he
  subst he
  revert h
  decide

/-- `replace('class', '')` leaves a string without the letter `c` unchanged. -/
theorem stripClassAll_no_c (l : List Char) (h : ∀ c ∈ l, c ≠ 'c') :
    stripClassAll l = l := by
  induction l using stripClassAll.induct with
  | case1 rest ih => exact absurd rfl (h 'c' (by simp))
  | case2 c rest h2 ih =>
      rw [stripClassAll.eq_def]
      split
      · rename_i heq
        exact absurd rfl (h 'c' (heq ▸ by simp))
      · rename_i c2 rest2 hne heq
        obtain ⟨rfl, rfl⟩ : c = c2 ∧ rest = rest2 := by
          injection heq with ha hb
          exact ⟨ha, hb⟩
        rw [ih (fun x hx => h x (by simp [hx]))]
      · rename_i heq
        exact absurd heq (by simp)
  | case3 => rfl

/-- A decimal digit is not Python whitespace. -/
theorem isPySpace_digit (c : Char) (h : isDigitCh c = true) : isPySpace c = false := by
  simp only [isDigitCh, decide_eq_true_eq] at h
  simp only [isPySpace, decide_eq_false_iff_not]
  push_neg
  refine ⟨?_, ?_, ?_, ?_, ?_, ?_⟩ <;> (intro he; subst he; revert h; decide)

/-- Dropping whitespace from an all-digit list is the identity. -/
theorem dropWhile_no_space (l : List Char) (h : ∀ c ∈ l, isDigitCh c = true) :
    l.dropWhile isPySpace = l := by
  cases l with
  | nil => rfl
  | cons a tl =>
    rw [List.dropWhile_cons, isPySpace_digit a (h a (by simp))]
    simp

/-- Stripping an all-digit list is the identity. -/
theorem pyStrip_digits (l : List Char) (h : ∀ c ∈ l, isDigitCh c = true) :
    pyStrip l = l := by
  rw [pyStrip, dropWhile_no_space l h,
      dropWhile_no_space _ (fun c hc => h c (List.mem_reverse.mp hc)),
      List.reverse_reverse]

/-- `int()` of a nonempty all-digit string is its decimal value. -/
theorem pythonInt_digits (l : List Char) (hne : l ≠ []) (h : ∀ c ∈ l, isDigitCh c = true) :
    pythonInt l = some (digitsVal l : ℤ) := by
  have hs := pyStrip_digits l h
  cases l with
  | nil => exact absurd rfl hne
  | cons a tl =>
    have ha := h a (by simp)
    have hna : a ≠ '-' := by
      intro he; subst he; revert ha; decide
    have hnb : a ≠ '+' := by
      intro he; subst he; revert ha; decide
    rw [pythonInt.eq_def, hs]
    simp only [if_neg hna, if_neg hnb]
    rw [if_pos (List.all_eq_true.mpr h)]

/-- Lowercasing fixes an all-digit list. -/
theorem map_pyLowerChar_digits (ds : List Char) (h : ∀ c ∈ ds, isDigitCh c = true) :
    ds.map pyLowerChar = ds := by
  induction ds with
  | nil => rfl
  | cons a tl ih =>
    rw [List.map_cons, pyLowerChar_digit a (h a (by simp)),
        ih (fun c hc => h c (by simp [hc]))]

/-- `get_class_number` on `"class"` followed by a nonempty digit string
returns the decimal value of the digits. -/
theorem get_class_number_class_digits (ds : List Char) (hne : ds ≠ [])
    (h : ∀ c ∈ ds, isDigitCh c = true) :
    get_class_number ⟨'c' :: 'l' :: 'a' :: 's' :: 's' :: ds⟩ = (digitsVal ds : ℤ) := by
  have hlow : pyLower ('c' :: 'l' :: 'a' :: 's' :: 's' :: ds) =
      'c' :: 'l' :: 'a' :: 's' :: 's' :: ds := by
    simp only [pyLower, List.map_cons, map_pyLowerChar_digits ds h]
    rfl
  have hstrip : stripClassAll ('c' :: 'l' :: 'a' :: 's' :: 's' :: ds) = ds := by
    have h1 : stripClassAll ('c' :: 'l' :: 'a' :: 's' :: 's' :: ds) = stripClassAll ds := rfl
    rw [h1, stripClassAll_no_c ds (fun c hc => digit_ne_c c (h c hc))]
  have hpre : "class".data.isPrefixOf ('c' :: 'l' :: 'a' :: 's' :: 's' :: ds) = true := by
    simp [List.isPrefixOf]
  simp only [get_class_number]
  rw [hlow, if_pos hpre, hstrip, pythonInt_digits ds hne h]

/-- C5 (counterexample): the claim maps the bare numeric label `"3"` to
priority 3, but `get_class_number "3"` takes the non-`class` branch and
returns 0. -/
theorem class_priority_bare_numeric_counterexample :
    get_class_number "3" ≠ 3 := by decide

/-- C5 (amended): the extraction maps `"class3"` to 3 and `"classN"` to `N`
for every nonempty digit string `N`; every label that does not start
(case-insensitively) with `"class"` — bare numeric labels like `"3"` included —
resolves to 0, and in particular the thickness labels weak/medium/strong
resolve to 0. -/
theorem class_priority_extraction :
    get_class_number "class3" = 3 ∧
    (∀ ds : List Char, ds ≠ [] → (∀ c ∈ ds, isDigitCh c = true) →
      get_class_number ⟨'c' :: 'l' :: 'a' :: 's' :: 's' :: ds⟩ = (digitsVal ds : ℤ)) ∧
    get_class_number "3" = 0 ∧
    (∀ s : String, "class".data.isPrefixOf (pyLower s.data) = false →
      get_class_number s = 0) ∧
    get_class_number "weak" = 0 ∧
    get_class_number "medium" = 0 ∧
    get_class_number "strong" = 0 := by
  refine ⟨by decide, get_class_number_class_digits, by decide, ?_, by decide, by decide,
    by decide⟩
  intro s hs
  simp only [get_class_number]
  rw [if_neg (by simp [hs])]

/-- C5 (witness): concrete instance of the general `"classN"` clause of
`class_priority_extraction` at `N = 47`, plus the non-`class` clause at
`"foo"`. -/
theorem class_priority_extraction_witness :
    (['4', '7'] : List Char) ≠ [] ∧
    (∀ c ∈ (['4', '7'] : List Char), isDigitCh c = true) ∧
    get_class_number ⟨'c' :: 'l' :: 'a' :: 's' :: 's' :: ['4', '7']⟩ =
      (digitsVal ['4', '7'] : ℤ) ∧
    "class".data.isPrefixOf (pyLower "foo".data) = false ∧
    get_class_number "foo" = 0 := by
  refine ⟨by decide, by decide, ?_, by decide, ?_⟩
  · exact class_priority_extraction.2.1 ['4', '7'] (by decide) (by decide)
  · exact class_priority_extraction.2.2.2.1 "foo" (by decide)

/-! ### Claim C6 — empty thickness input zeroes EHD and OHS -/

/-- C6: for every non-empty density input and empty thickness input, the
scorecard's `effective_hair_density` and `overall_hair_score` are exactly 0
(the embedding is total, so no exception and no NaN/Infinity can arise). -/
theorem combined_empty_thickness_zero (dp : List Detection) (hdp : dp ≠ []) :
    dictGet "effective_hair_density" (calculate_combined_metrics dp []) = some (JVal.num 0) ∧
    dictGet "overall_hair_score" (calculate_combined_metrics dp []) = some (JVal.num 0) := by
  have hcond : ¬(dp = [] ∧ ([] : List Detection) = []) := by simp [hdp]
  simp only [calculate_combined_metrics, if_neg hcond, if_pos hdp, effectiveThickness_nil]
  norm_num [truncQ_zero, pyRound_zero, hdp]
  constructor <;> simp [dictGet]

/-- C6 (witness): concrete instance with the one-detection density set
`[label "1"]` and an empty thickness set. -/
theorem combined_empty_thickness_zero_witness :
    ([⟨"1", 1, ⟨0, 0, 0, 0⟩⟩] : List Detection) ≠ [] ∧
    dictGet "effective_hair_density"
      (calculate_combined_metrics [⟨"1", 1, ⟨0, 0, 0, 0⟩⟩] []) = some (JVal.num 0) ∧
    dictGet "overall_hair_score"
      (calculate_combined_metrics [⟨"1", 1, ⟨0, 0, 0, 0⟩⟩] []) = some (JVal.num 0) := by
  have h := combined_empty_thickness_zero [⟨"1", 1, ⟨0, 0, 0, 0⟩⟩] (by simp)
  exact ⟨by simp, h.1, h.2⟩

/-! ### Claim C8 — scorecard shape -/

/-- C8 (counterexample): the both-empty early return produces a dictionary
with a different key set (7 keys, no band fields) than the scorecard produced
for any other input (17 keys with bands), so empty input does not propagate as
zeroed output of the same shape. -/
theorem scorecard_shape_counterexample :
    (calculate_combined_metrics [] []).map Prod.fst ≠
      (calculate_combined_metrics [⟨"1", 1, ⟨0, 0, 0, 0⟩⟩] []).map Prod.fst := by
  have h7 : (calculate_combined_metrics [] []).map Prod.fst = emptyScorecardKeys := rfl
  have h17 := combined_full_keys [⟨"1", 1, ⟨0, 0, 0, 0⟩⟩] [] (by simp)
  rw [h7, h17]
  decide

/-- C8 (amended): whenever at least one input is non-empty the scorecard has
the fixed 17-field shape, with every banded metric's color drawn from
`success|warning|danger`; when both inputs are empty the code instead returns
a reduced zeroed 7-field dictionary without band fields. -/
theorem scorecard_shape :
    (∀ dp tp : List Detection, ¬(dp = [] ∧ tp = []) →
      (calculate_combined_metrics dp tp).map Prod.fst = scorecardKeys) ∧
    calculate_combined_metrics [] [] =
      [("terminal_to_vellus_ratio", JVal.num 0),
       ("percent_thick_hairs", JVal.num 0),
       ("hair_caliber_index", JVal.int 0),
       ("average_thickness_score", JVal.num 0),
       ("hairs_per_fu", JVal.num 0),
       ("hairs_per_cm2", JVal.num 0),
       ("effective_hair_density", JVal.num 0)] ∧
    (∀ x cutHi cutLo : ℚ, bandColor x cutHi cutLo = "success" ∨
      bandColor x cutHi cutLo = "warning" ∨ bandColor x cutHi cutLo = "danger") := by
  refine ⟨combined_full_keys, rfl, ?_⟩
  intro x cutHi cutLo
  rw [bandColor]
  split
  · left; rfl
  · split
    · right; left; rfl
    · right; right; rfl

/-- C8 (witness): concrete instance of the full-shape clause of
`scorecard_shape` with density `[label "1"]` and empty thickness, and of the
band clause at `x = 60` with cuts 80/50. -/
theorem scorecard_shape_witness :
    ¬(([⟨"1", 1, ⟨0, 0, 0, 0⟩⟩] : List Detection) = [] ∧ ([] : List Detection) = []) ∧
    (calculate_combined_metrics [⟨"1", 1, ⟨0, 0, 0, 0⟩⟩] []).map Prod.fst = scorecardKeys ∧
    (bandColor 60 80 50 = "success" ∨ bandColor 60 80 50 = "warning" ∨
      bandColor 60 80 50 = "danger") := by
  refine ⟨by simp, ?_, ?_⟩
  · exact scorecard_shape.1 [⟨"1", 1, ⟨0, 0, 0, 0⟩⟩] [] (by simp)
  · exact scorecard_shape.2.2 60 80 50

/-! ### Suppressor lemmas (claims C3, C4, C10) -/

/-- The sort order implies descending class priority. -/
theorem nmsLe_classNum (a b : Detection) (h : nmsLe a b) : classNum b ≤ classNum a := by
  unfold nmsLe keyLt at h
  push_neg at h
  have h1 := h.1
  simp only [sortKey] at h1
  omega

/-- On a candidate list of descending class priority that also dominates the
accumulator, the replacement branch of `apply_nms` never fires, and the loop
agrees with plain greedy suppression. -/
theorem nmsLoop_eq_greedyLoop (cfg : NMSConfig) :
    ∀ (rest acc : List Detection),
    (∀ a ∈ acc, ∀ b ∈ rest, classNum b ≤ classNum a) →
    List.Pairwise (fun a b => classNum b ≤ classNum a) rest →
    nmsLoop cfg acc rest = greedyLoop cfg acc rest := by
  intro rest
  induction rest with
  | nil => intro acc _ _; rfl
  | cons p tl ih =>
    intro acc hinv hpw
    obtain ⟨hhead, htail⟩ := List.pairwise_cons.mp hpw
    simp only [nmsLoop, greedyLoop]
    cases hfind : acc.find? (conflictB cfg p) with
    | none =>
      have hany : acc.any (conflictB cfg p) = false := by
        rw [List.any_eq_false]
        intro x hx
        have hx2 := List.find?_eq_none.mp hfind x hx
        simpa using hx2
      rw [hany]
      simp only [Bool.false_eq_true, if_false]
      apply ih
      · intro a ha b hb
        rcases List.mem_append.mp ha with ha2 | ha2
        · exact hinv a ha2 b (List.mem_cons_of_mem _ hb)
        · rw [List.mem_singleton.mp ha2]
          exact hhead b hb
      · exact htail
    | some sel =>
      have hsel : sel ∈ acc := List.mem_of_find?_eq_some hfind
      have hle : classNum p ≤ classNum sel := hinv sel hsel p (List.mem_cons_self _ _)
      have hany : acc.any (conflictB cfg p) = true :=
        List.any_eq_true.mpr ⟨sel, hsel, List.find?_some hfind⟩
      rw [hany]
      have hngt : ¬ (classNum p > classNum sel) := not_lt.mpr hle
      simp only [hngt, if_false, if_pos rfl]
      apply ih
      · intro a ha b hb
        exact hinv a ha b (List.mem_cons_of_mem _ hb)
      · exact htail

/-- `apply_nms` coincides with plain greedy suppression on every input. -/
theorem apply_nms_as_greedy (preds : List Detection) (cfg : NMSConfig) :
    apply_nms preds cfg = greedy_nms preds cfg := by
  by_cases h : preds = []
  · rw [apply_nms, greedy_nms, if_pos h, if_pos h]
  · rw [apply_nms, greedy_nms, if_neg h, if_neg h]
    have hs : List.Sorted nmsLe (pySortPredictions preds) :=
      List.sorted_insertionSort nmsLe preds
    have hpw : List.Pairwise (fun a b => classNum b ≤ classNum a) (pySortPredictions preds) :=
      hs.imp (fun hab => nmsLe_classNum _ _ hab)
    rw [nmsLoop_eq_greedyLoop cfg (pySortPredictions preds) [] (by simp) hpw]

/-- Absence of a conflict is exactly padded IoU at or below the threshold. -/
theorem conflictB_false_iff (cfg : NMSConfig) (p q : Detection) :
    conflictB cfg p q = false ↔
    calculate_iou (apply_padding_to_bbox p.bbox cfg.padding_factor)
      (apply_padding_to_bbox q.bbox cfg.padding_factor) ≤ cfg.iou_threshold := by
  simp [conflictB, not_lt]

/-- Greedy suppression preserves pairwise absence of conflicts. -/
theorem greedyLoop_pairwise (cfg : NMSConfig) :
    ∀ (rest acc : List Detection),
    List.Pairwise (fun a b => conflictB cfg b a = false) acc →
    List.Pairwise (fun a b => conflictB cfg b a = false) (greedyLoop cfg acc rest) := by
  intro rest
  induction rest with
  | nil => intro acc h; exact h
  | cons p tl ih =>
    intro acc hacc
    simp only [greedyLoop]
    cases hany : acc.any (conflictB cfg p) with
    | true => simp only [if_pos rfl]; exact ih acc hacc
    | false =>
      simp only [Bool.false_eq_true, if_false]
      apply ih
      rw [List.pairwise_append]
      refine ⟨hacc, List.pairwise_singleton _ _, ?_⟩
      intro a ha b hb
      rw [List.mem_singleton.mp hb]
      exact Bool.not_eq_true _ ▸ (List.any_eq_false.mp hany a ha)

/-- Every pair retained by greedy suppression has padded IoU at or below the
threshold (later element against earlier element). -/
theorem greedy_nms_pairwise (preds : List Detection) (cfg : NMSConfig) :
    List.Pairwise (fun a b => conflictB cfg b a = false) (greedy_nms preds cfg) := by
  by_cases h : preds = []
  · rw [greedy_nms, if_pos h]; exact List.Pairwise.nil
  · rw [greedy_nms, if_neg h]
    have hp := greedyLoop_pairwise cfg (pySortPredictions preds) [] List.Pairwise.nil
    simp only []
    split
    · exact List.Pairwise.sublist (List.take_sublist _ _) hp
    · exact hp

/-- C4: for every DetectionSet and NMSConfig, any two distinct retained
detections — in particular any two of equal class priority — have padded IoU
at or below the configured threshold. -/
theorem nms_retained_pairwise_iou (preds : List Detection) (cfg : NMSConfig) (i j : ℕ)
    (hi : i < (apply_nms preds cfg).length) (hj : j < (apply_nms preds cfg).length)
    (hij : i ≠ j)
    (hpr : classNum ((apply_nms preds cfg).getD i defaultDet) =
           classNum ((apply_nms preds cfg).getD j defaultDet)) :
    calculate_iou
      (apply_padding_to_bbox ((apply_nms preds cfg).getD i defaultDet).bbox cfg.padding_factor)
      (apply_padding_to_bbox ((apply_nms preds cfg).getD j defaultDet).bbox cfg.padding_factor)
      ≤ cfg.iou_threshold := by
  have hpair : List.Pairwise (fun a b => conflictB cfg b a = false) (apply_nms preds cfg) := by
    rw [apply_nms_as_greedy]
    exact greedy_nms_pairwise preds cfg
  rw [List.getD_eq_getElem _ _ hi, List.getD_eq_getElem _ _ hj]
  rcases Nat.lt_or_ge i j with hlt | hge
  · have hr := List.pairwise_iff_getElem.mp hpair i j hi hj hlt
    rw [calculate_iou_comm]
    exact (conflictB_false_iff cfg _ _).mp hr
  · have hlt2 : j < i := Nat.lt_of_le_of_ne hge (fun he => hij he.symm)
    have hr := List.pairwise_iff_getElem.mp hpair j i hj hi hlt2
    exact (conflictB_false_iff cfg _ _).mp hr

/-- C4 (witness): two zero-area same-label detections are both retained
(their padded IoU is 0), and the pairwise bound holds between them. -/
theorem nms_retained_pairwise_iou_witness :
    0 < (apply_nms [⟨"weak", 0, ⟨0, 0, 0, 0⟩⟩, ⟨"weak", 0, ⟨0, 0, 0, 0⟩⟩]
          ⟨1/2, 0, 100⟩).length ∧
    1 < (apply_nms [⟨"weak", 0, ⟨0, 0, 0, 0⟩⟩, ⟨"weak", 0, ⟨0, 0, 0, 0⟩⟩]
          ⟨1/2, 0, 100⟩).length ∧
    (0 : ℕ) ≠ 1 ∧
    classNum ((apply_nms [⟨"weak", 0, ⟨0, 0, 0, 0⟩⟩, ⟨"weak", 0, ⟨0, 0, 0, 0⟩⟩]
          ⟨1/2, 0, 100⟩).getD 0 defaultDet) =
      classNum ((apply_nms [⟨"weak", 0, ⟨0, 0, 0, 0⟩⟩, ⟨"weak", 0, ⟨0, 0, 0, 0⟩⟩]
          ⟨1/2, 0, 100⟩).getD 1 defaultDet) ∧
    calculate_iou
      (apply_padding_to_bbox ((apply_nms [⟨"weak", 0, ⟨0, 0, 0, 0⟩⟩, ⟨"weak", 0, ⟨0, 0, 0, 0⟩⟩]
          ⟨1/2, 0, 100⟩).getD 0 defaultDet).bbox (0 : ℚ))
      (apply_padding_to_bbox ((apply_nms [⟨"weak", 0, ⟨0, 0, 0, 0⟩⟩, ⟨"weak", 0, ⟨0, 0, 0, 0⟩⟩]
          ⟨1/2, 0, 100⟩).getD 1 defaultDet).bbox (0 : ℚ))
      ≤ (1/2 : ℚ) := by
  have hle : nmsLe ⟨"weak", 0, ⟨0, 0, 0, 0⟩⟩ ⟨"weak", 0, ⟨0, 0, 0, 0⟩⟩ := by
    simp [nmsLe, keyLt]
  have hsort : pySortPredictions [⟨"weak", 0, ⟨0, 0, 0, 0⟩⟩, ⟨"weak", 0, ⟨0, 0, 0, 0⟩⟩] =
      [⟨"weak", 0, ⟨0, 0, 0, 0⟩⟩, ⟨"weak", 0, ⟨0, 0, 0, 0⟩⟩] := by
    simp [pySortPredictions, List.insertionSort, List.orderedInsert, hle]
  have hconfl : conflictB ⟨1/2, 0, 100⟩ ⟨"weak", 0, ⟨0, 0, 0, 0⟩⟩
      ⟨"weak", 0, ⟨0, 0, 0, 0⟩⟩ = false := by
    rw [conflictB_false_iff]
    norm_num [apply_padding_to_bbox, calculate_iou]
  have hnms : apply_nms [⟨"weak", 0, ⟨0, 0, 0, 0⟩⟩, ⟨"weak", 0, ⟨0, 0, 0, 0⟩⟩] ⟨1/2, 0, 100⟩ =
      [⟨"weak", 0, ⟨0, 0, 0, 0⟩⟩, ⟨"weak", 0, ⟨0, 0, 0, 0⟩⟩] := by
    rw [apply_nms, if_neg (by simp)]
    simp only [hsort, nmsLoop, List.find?_nil, List.find?_cons, hconfl, List.find?_nil]
    norm_num [hconfl]
  have h0 : 0 < (apply_nms [⟨"weak", 0, ⟨0, 0, 0, 0⟩⟩, ⟨"weak", 0, ⟨0, 0, 0, 0⟩⟩]
      ⟨1/2, 0, 100⟩).length := by rw [hnms]; norm_num
  have h1 : 1 < (apply_nms [⟨"weak", 0, ⟨0, 0, 0, 0⟩⟩, ⟨"weak", 0, ⟨0, 0, 0, 0⟩⟩]
      ⟨1/2, 0, 100⟩).length := by rw [hnms]; norm_num
  have hpr : classNum ((apply_nms [⟨"weak", 0, ⟨0, 0, 0, 0⟩⟩, ⟨"weak", 0, ⟨0, 0, 0, 0⟩⟩]
        ⟨1/2, 0, 100⟩).getD 0 defaultDet) =
      classNum ((apply_nms [⟨"weak", 0, ⟨0, 0, 0, 0⟩⟩, ⟨"weak", 0, ⟨0, 0, 0, 0⟩⟩]
        ⟨1/2, 0, 100⟩).getD 1 defaultDet) := by
    rw [hnms]
    rfl
  exact ⟨h0, h1, by norm_num, hpr,
    nms_retained_pairwise_iou _ _ 0 1 h0 h1 (by norm_num) hpr⟩

/-- C3: for any two detections of class priorities 2 and 1 whose padded boxes
overlap above the threshold, presented in either order, the suppressor keeps
the priority-2 detection and drops the priority-1 one, for every assignment of
confidences (the confidences are arbitrary fields of `d1`, `d2`). -/
theorem nms_priority_two_beats_one (d1 d2 : Detection) (cfg : NMSConfig) (l : List Detection)
    (h1 : classNum d1 = 2) (h2 : classNum d2 = 1)
    (hiou : cfg.iou_threshold <
      calculate_iou (apply_padding_to_bbox d1.bbox cfg.padding_factor)
        (apply_padding_to_bbox d2.bbox cfg.padding_factor))
    (hmax : 1 ≤ cfg.max_predictions)
    (hl : l = [d1, d2] ∨ l = [d2, d1]) :
    d1 ∈ apply_nms l cfg ∧ d2 ∉ apply_nms l cfg := by
  have hne : d2 ≠ d1 := by
    intro he
    rw [he, h1] at h2
    norm_num at h2
  have hle12 : nmsLe d1 d2 := by
    intro hk
    rcases hk with hk | ⟨hk, _⟩
    · simp only [sortKey, h1, h2] at hk
      norm_num at hk
    · simp only [sortKey, h1, h2] at hk
      norm_num at hk
  have hnle21 : ¬ nmsLe d2 d1 := by
    intro hn
    apply hn
    left
    simp only [sortKey, h1, h2]
    norm_num
  have hsort : pySortPredictions l = [d1, d2] := by
    rcases hl with rfl | rfl
    · simp [pySortPredictions, List.insertionSort, List.orderedInsert, hle12]
    · simp [pySortPredictions, List.insertionSort, List.orderedInsert, hnle21]
  have hconf : conflictB cfg d2 d1 = true := by
    simp only [conflictB, decide_eq_true_eq]
    rw [calculate_iou_comm]
    exact hiou
  have hngt : ¬ (classNum d2 > classNum d1) := by
    rw [h1, h2]
    norm_num
  have hlne : l ≠ [] := by rcases hl with rfl | rfl <;> simp
  have hout : apply_nms l cfg = [d1] := by
    rw [apply_nms, if_neg hlne]
    simp only [hsort, nmsLoop, List.nil_append, List.find?_nil, List.find?_cons, hconf,
      hngt, if_false]
    simp only [List.length_singleton]
    rw [if_neg (by omega)]
  rw [hout]
  exact ⟨List.mem_singleton_self _, by simp [hne]⟩

/-- C3 (witness): label `"class2"` with confidence 0 evicts label `"class1"`
with confidence 1 when both share the unit box, with the priority-1 detection
listed first. -/
theorem nms_priority_two_beats_one_witness :
    classNum ⟨"class2", 0, ⟨0, 1, 0, 1⟩⟩ = 2 ∧
    classNum ⟨"class1", 1, ⟨0, 1, 0, 1⟩⟩ = 1 ∧
    (⟨1/2, 0, 100⟩ : NMSConfig).iou_threshold <
      calculate_iou
        (apply_padding_to_bbox (⟨"class2", 0, ⟨0, 1, 0, 1⟩⟩ : Detection).bbox
          (⟨1/2, 0, 100⟩ : NMSConfig).padding_factor)
        (apply_padding_to_bbox (⟨"class1", 1, ⟨0, 1, 0, 1⟩⟩ : Detection).bbox
          (⟨1/2, 0, 100⟩ : NMSConfig).padding_factor) ∧
    1 ≤ (⟨1/2, 0, 100⟩ : NMSConfig).max_predictions ∧
    (([⟨"class1", 1, ⟨0, 1, 0, 1⟩⟩, ⟨"class2", 0, ⟨0, 1, 0, 1⟩⟩] : List Detection) =
        [⟨"class2", 0, ⟨0, 1, 0, 1⟩⟩, ⟨"class1", 1, ⟨0, 1, 0, 1⟩⟩] ∨
      ([⟨"class1", 1, ⟨0, 1, 0, 1⟩⟩, ⟨"class2", 0, ⟨0, 1, 0, 1⟩⟩] : List Detection) =
        [⟨"class1", 1, ⟨0, 1, 0, 1⟩⟩, ⟨"class2", 0, ⟨0, 1, 0, 1⟩⟩]) ∧
    (⟨"class2", 0, ⟨0, 1, 0, 1⟩⟩ : Detection) ∈
      apply_nms [⟨"class1", 1, ⟨0, 1, 0, 1⟩⟩, ⟨"class2", 0, ⟨0, 1, 0, 1⟩⟩] ⟨1/2, 0, 100⟩ ∧
    (⟨"class1", 1, ⟨0, 1, 0, 1⟩⟩ : Detection) ∉
      apply_nms [⟨"class1", 1, ⟨0, 1, 0, 1⟩⟩, ⟨"class2", 0, ⟨0, 1, 0, 1⟩⟩] ⟨1/2, 0, 100⟩ := by
  have hc2 : classNum (⟨"class2", 0, ⟨0, 1, 0, 1⟩⟩ : Detection) = 2 := by decide
  have hc1 : classNum (⟨"class1", 1, ⟨0, 1, 0, 1⟩⟩ : Detection) = 1 := by decide
  have hiou : (⟨1/2, 0, 100⟩ : NMSConfig).iou_threshold <
      calculate_iou
        (apply_padding_to_bbox (⟨"class2", 0, ⟨0, 1, 0, 1⟩⟩ : Detection).bbox
          (⟨1/2, 0, 100⟩ : NMSConfig).padding_factor)
        (apply_padding_to_bbox (⟨"class1", 1, ⟨0, 1, 0, 1⟩⟩ : Detection).bbox
          (⟨1/2, 0, 100⟩ : NMSConfig).padding_factor) := by
    norm_num [apply_padding_to_bbox, calculate_iou]
  have hres := nms_priority_two_beats_one ⟨"class2", 0, ⟨0, 1, 0, 1⟩⟩
    ⟨"class1", 1, ⟨0, 1, 0, 1⟩⟩ ⟨1/2, 0, 100⟩
    [⟨"class1", 1, ⟨0, 1, 0, 1⟩⟩, ⟨"class2", 0, ⟨0, 1, 0, 1⟩⟩]
    hc2 hc1 hiou (by norm_num) (Or.inr rfl)
  exact ⟨hc2, hc1, hiou, by norm_num, Or.inr rfl, hres.1, hres.2⟩

/-- C10: because candidates are processed in descending class priority, the
replacement branch of `apply_nms` is unreachable, and `apply_nms` equals plain
greedy NMS (same sort, only ever drops a conflicting candidate, never removes
an accepted detection, same truncation). -/
theorem nms_replacement_branch_unreachable (preds : List Detection) (cfg : NMSConfig) :
    apply_nms preds cfg = greedy_nms preds cfg :=
  apply_nms_as_greedy preds cfg

/-! ### Claim C9 — totality and closed-form outcomes of the core -/

/-- Detections with confidence 0 all fall below the 0.1 floor, so the counting
loop returns its initial state. -/
theorem follicularFold_zero_conf (preds : List Detection)
    (h : ∀ p ∈ preds, p.confidence = 0) : follicularFold preds = (0, 0, []) := by
  induction preds with
  | nil => rfl
  | cons p tl ih =>
    have hc : p.confidence < 1/10 := by
      rw [h p (by simp)]
      norm_num
    simp only [follicularFold, List.foldl_cons, if_pos hc]
    simpa only [follicularFold] using ih (fun q hq => h q (by simp [hq]))

/-- C9: the core functions are total Lean functions (no exception can escape),
and the edge shapes have their specified closed-form outcomes: empty input to
the suppressor yields empty output; a single detection is kept up to
truncation; an all-zero-confidence density set yields the all-zero metrics;
and the combined scorer returns one of the two fixed dictionary shapes for
every pair of inputs, whatever the labels. -/
theorem core_total_closed_forms :
    (∀ cfg : NMSConfig, apply_nms [] cfg = []) ∧
    (∀ (p : Detection) (cfg : NMSConfig),
      apply_nms [p] cfg = [p].take cfg.max_predictions) ∧
    (∀ preds : List Detection, (∀ p ∈ preds, p.confidence = 0) →
      calculate_follicular_metrics preds = ⟨0, 0, 0, 0, 0, 0, AREA_CM2, []⟩) ∧
    (∀ dp tp : List Detection,
      (calculate_combined_metrics dp tp).map Prod.fst = emptyScorecardKeys ∨
      (calculate_combined_metrics dp tp).map Prod.fst = scorecardKeys) := by
  refine ⟨?_, ?_, ?_, ?_⟩
  · intro cfg
    rw [apply_nms, if_pos rfl]
  · intro p cfg
    rw [apply_nms, if_neg (by simp)]
    have hsort : pySortPredictions [p] = [p] := rfl
    have hloop : nmsLoop cfg [] [p] = [p] := rfl
    simp only [hsort, hloop, List.length_singleton]
    rcases Nat.eq_zero_or_pos cfg.max_predictions with h | h
    · rw [h]
      norm_num
    · rw [if_neg (by omega), List.take_of_length_le (by simpa using h)]
  · intro preds hconf
    have hfold := follicularFold_zero_conf preds hconf
    simp [calculate_follicular_metrics, hfold, fuBreakdown, pyRound_zero]
  · intro dp tp
    by_cases h : dp = [] ∧ tp = []
    · left
      rw [calculate_combined_metrics, if_pos h]
      rfl
    · right
      exact combined_full_keys dp tp h

/-- C9 (witness): the closed forms at concrete edge inputs — a single
zero-confidence detection, the empty list, and a combined call whose only
thickness label is the exotic string `"other"`. -/
theorem core_total_closed_forms_witness :
    (∀ p ∈ ([⟨"x", 0, ⟨0, 0, 0, 0⟩⟩] : List Detection), p.confidence = 0) ∧
    apply_nms [] ⟨1/2, 0, 100⟩ = [] ∧
    apply_nms [⟨"x", 0, ⟨0, 0, 0, 0⟩⟩] ⟨1/2, 0, 100⟩ =
      ([⟨"x", 0, ⟨0, 0, 0, 0⟩⟩] : List Detection).take 100 ∧
    calculate_follicular_metrics [⟨"x", 0, ⟨0, 0, 0, 0⟩⟩] =
      ⟨0, 0, 0, 0, 0, 0, AREA_CM2, []⟩ ∧
    ((calculate_combined_metrics [] [⟨"other", 1, ⟨0, 0, 0, 0⟩⟩]).map Prod.fst =
        emptyScorecardKeys ∨
      (calculate_combined_metrics [] [⟨"other", 1, ⟨0, 0, 0, 0⟩⟩]).map Prod.fst =
        scorecardKeys) := by
  have hz : ∀ p ∈ ([⟨"x", 0, ⟨0, 0, 0, 0⟩⟩] : List Detection), p.confidence = 0 := by
    intro p hp
    simp only [List.mem_singleton] at hp
    subst hp
    rfl
  exact ⟨hz, core_total_closed_forms.1 ⟨1/2, 0, 100⟩,
    core_total_closed_forms.2.1 ⟨"x", 0, ⟨0, 0, 0, 0⟩⟩ ⟨1/2, 0, 100⟩,
    core_total_closed_forms.2.2.1 [⟨"x", 0, ⟨0, 0, 0, 0⟩⟩] hz,
    core_total_closed_forms.2.2.2 [] [⟨"other", 1, ⟨0, 0, 0, 0⟩⟩]⟩
